import Mathlib

/-!
# Verification of the Own-web-server request/response engine

Shallow embedding of `src/main.py` (a minimal HTTP/1.1 server) into Lean 4,
together with proofs of the specification's testable properties.

External collaborators of the code (the filesystem behind `read_file_safely`,
the `mimetypes` registry behind `get_content_type`, Python's `json.loads`,
and the wall clock behind `datetime`) are abstracted as explicit parameters,
exactly at the call boundary the source uses them.
-/

/-! ## Python string primitives used by the source -/

/-- The whitespace set of Python's `str.split()` / `str.strip()`
(ASCII whitespace plus the Unicode whitespace code points). -/
def isPySpace (c : Char) : Bool :=
  let n := c.toNat
  n == 32 || n == 9 || n == 10 || n == 13 || n == 11 || n == 12 ||
  n == 28 || n == 29 || n == 30 || n == 31 || n == 133 || n == 160 ||
  n == 0x1680 || (0x2000 ≤ n && n ≤ 0x200a) || n == 0x2028 || n == 0x2029 ||
  n == 0x202f || n == 0x205f || n == 0x3000

/-- Split a character list at every character satisfying `p`, keeping empty
pieces (the behaviour of splitting on a single-character separator). -/
def splitOnPred (p : Char → Bool) : List Char → List (List Char)
  | [] => [[]]
  | c :: rest =>
    if p c then [] :: splitOnPred p rest
    else
      match splitOnPred p rest with
      | [] => [[c]]
      | piece :: pieces => (c :: piece) :: pieces

/-- Python `request_data.split('\r\n')`: split on the two-character
separator, non-overlapping, left to right, keeping empty pieces. -/
def splitCRLF : List Char → List (List Char)
  | [] => [[]]
  | '\x0d' :: '\x0a' :: rest => [] :: splitCRLF rest
  | c :: rest =>
    match splitCRLF rest with
    | [] => [[c]]
    | piece :: pieces => (c :: piece) :: pieces

/-- Python `s.split('\r\n')` at the `String` level. -/
def splitLinesCRLF (s : String) : List String :=
  (splitCRLF s.data).map (fun l => (⟨l⟩ : String))

/-- Python `s.split()` (no argument): split on runs of whitespace,
discarding empty pieces. -/
def pySplit (s : String) : List String :=
  ((splitOnPred isPySpace s.data).map (fun l => (⟨l⟩ : String))).filter
    (fun piece => piece ≠ "")

/-- Python `s.strip()`: drop leading and trailing whitespace. -/
def pyStrip (s : String) : String :=
  ⟨((s.data.dropWhile isPySpace).reverse.dropWhile isPySpace).reverse⟩

/-- Python `s.lower()` (ASCII case folding, which is all the source's
header names exercise). -/
def pyLower (s : String) : String := ⟨s.data.map Char.toLower⟩

/-- Python `'\r\n'.join(lines)`. -/
def joinCRLFstr : List String → String
  | [] => ""
  | [l] => l
  | l :: rest => l ++ "\r\n" ++ joinCRLFstr rest

/-- Python `line.split(':', 1)` when `':' in line`: the part before the
first colon and the part after it; `none` when the line has no colon. -/
def splitAtFirstColon : List Char → Option (List Char × List Char)
  | [] => none
  | c :: rest =>
    if c = ':' then some ([], rest)
    else (splitAtFirstColon rest).map (fun q => (c :: q.1, q.2))

/-! ## Python `dict` as an insertion-ordered association list -/

/-- Whether an association list has an entry for key `k`. -/
def hasKey (k : String) : List (String × String) → Bool
  | [] => false
  | q :: rest => q.1 == k || hasKey k rest

/-- Python `d[k] = v`: replace the value in place when the key exists
(keeping its position), otherwise append the new entry. -/
def dictInsert (d : List (String × String)) (k v : String) : List (String × String) :=
  if hasKey k d then d.map (fun q => if q.1 = k then (k, v) else q)
  else d ++ [(k, v)]

/-- Python `d.get(k)` / `d[k]` lookup (first entry with the key; under the
insertion invariant keys are unique so this is the entry). -/
def dictGet {α : Type} (k : String) : List (String × α) → Option α
  | [] => none
  | q :: rest => if q.1 = k then some q.2 else dictGet k rest

/-- Python `d.update(e)`: assign every entry of `e` into `d`, in order. -/
def dictUpdate (d : List (String × String)) : List (String × String) → List (String × String)
  | [] => d
  | (k, v) :: rest => dictUpdate (dictInsert d k v) rest

/-! ## `parse_request` (src/main.py lines 224-268) -/

/-- The structured request produced by `parse_request`. -/
structure ParsedRequest where
  method : String
  path : String
  http_version : String
  headers : List (String × String)
  body : String
deriving DecidableEq

/-- One header line, as the source reads it: if the line contains `':'`,
split at the first colon, strip and lower-case the key, strip the value. -/
def lineKV (line : String) : Option (String × String) :=
  match splitAtFirstColon line.data with
  | none => none
  | some (k, v) => some (pyLower (pyStrip ⟨k⟩), pyStrip ⟨v⟩)

/-- The header loop of `parse_request` (lines 246-254): walk the lines after
the request line, stopping at the first empty line.  Returns the headers
dict and, when an empty line was found, the lines after it (the body lines);
`none` means no empty line was found (`body_start` stays `0`). -/
def parseHeaders (acc : List (String × String)) : List String → List (String × String) × Option (List String)
  | [] => (acc, none)
  | line :: rest =>
    if line = "" then (acc, some rest)
    else
      match lineKV line with
      | some (k, v) => parseHeaders (dictInsert acc k v) rest
      | none => parseHeaders acc rest

/-- `parse_request` (lines 224-268).  Splits the raw text on `"\r\n"`,
rejects an empty first line, splits the request line on whitespace and
rejects fewer than two tokens, then collects headers and body.  The
Python `try` around this pure code can never fire, so the model is total. -/
def parse_request (request_data : String) : Option ParsedRequest :=
  match splitLinesCRLF request_data with
  | [] => none
  | first :: rest =>
    if first = "" then none
    else
      match pySplit first with
      | m :: p :: ts =>
        let pr := parseHeaders [] rest
        some ⟨m, p, ts.headD "HTTP/1.1", pr.1,
          match pr.2 with
          | none => ""
          | some bodyLines => joinCRLFstr bodyLines⟩
      | _ => none

/-! ## Bytes and `build_response` (src/main.py lines 112-151) -/

/-- UTF-8 encoding of one character (the bytes Python's `str.encode('utf-8')`
produces for it). -/
def utf8Char (c : Char) : List Nat :=
  let n := c.toNat
  if n < 0x80 then [n]
  else if n < 0x800 then [0xC0 + n / 64, 0x80 + n % 64]
  else if n < 0x10000 then [0xE0 + n / 4096, 0x80 + (n / 64) % 64, 0x80 + n % 64]
  else [0xF0 + n / 262144, 0x80 + (n / 4096) % 64, 0x80 + (n / 64) % 64, 0x80 + n % 64]

/-- Python `s.encode('utf-8')` as a list of byte values. -/
def strBytes (s : String) : List Nat := (s.data.map utf8Char).flatten

/-- A response body as the source passes it around: `str` or `bytes`. -/
inductive PyContent where
  | text : String → PyContent
  | bin : List Nat → PyContent
deriving DecidableEq

/-- The bytes a body contributes to the wire (`content.encode('utf-8')`
for text, the raw bytes otherwise). -/
def contentBytes : PyContent → List Nat
  | .text s => strBytes s
  | .bin b => b

/-- Line 132: `len(content) if isinstance(content, bytes) else
len(content.encode('utf-8'))`. -/
def contentLength (c : PyContent) : Nat := (contentBytes c).length

/-- The standard header dict of `build_response` (lines 128-134), in
insertion order.  `date` stands for the formatted `datetime.utcnow()`. -/
def standardHeaders (date : String) (content_type : String) (content : PyContent) :
    List (String × String) :=
  [("Server", "Own-Web-Server/1.0"),
   ("Date", date),
   ("Content-Type", content_type),
   ("Content-Length", toString (contentLength content)),
   ("Connection", "close")]

/-- The header-rendering loop (lines 141-142): one `"key: value\r\n"`
line per dict entry, in order. -/
def renderHeaderLines : List (String × String) → String
  | [] => ""
  | q :: rest => q.1 ++ ": " ++ q.2 ++ "\r\n" ++ renderHeaderLines rest

/-- `build_response` (lines 112-151): status line, standard headers updated
with `extra_headers`, a blank line, then the body bytes.  For a text body
Python computes `(response + content).encode('utf-8')`, which equals the
encoded header block followed by the encoded body; for a bytes body it is
`response.encode('utf-8') + content`. -/
def build_response (date : String) (status_code : Nat) (status_text : String)
    (content : PyContent) (content_type : String)
    (extra_headers : List (String × String)) : List Nat :=
  let statusLine := "HTTP/1.1 " ++ toString status_code ++ " " ++ status_text ++ "\r\n"
  let headers := dictUpdate (standardHeaders date content_type content) extra_headers
  let response := statusLine ++ renderHeaderLines headers ++ "\r\n"
  strBytes response ++ contentBytes content

/-! ### Byte-level scanners for the header/body framing -/

/-- Whether the list starts with the header terminator `"\r\n\r\n"`. -/
def isTermAt : List Nat → Bool
  | b1 :: b2 :: b3 :: b4 :: _ => b1 == 13 && b2 == 10 && b3 == 13 && b4 == 10
  | _ => false

/-- The bytes after the first occurrence of `"\r\n\r\n"` (`none` when the
terminator never occurs). -/
def dropAfterTerm : List Nat → Option (List Nat)
  | [] => none
  | b :: rest =>
    if isTermAt (b :: rest) then some (rest.drop 3) else dropAfterTerm rest

/-- How many positions of the list start an occurrence of `"\r\n\r\n"` —
i.e. how many empty lines the `"\r\n"`-framed prefix contains. -/
def countTerm : List Nat → Nat
  | [] => 0
  | b :: rest => (if isTermAt (b :: rest) then 1 else 0) + countTerm rest

/-- `"\r\n"`-terminated concatenation of byte lines (the shape of the
header block on the wire). -/
def joinCRLF : List (List Nat) → List Nat
  | [] => []
  | l :: ls => l ++ 13 :: 10 :: joinCRLF ls

/-! ## `create_error_page` (src/main.py lines 153-222) -/

/-- The HTML error page template (an f-string in the source; `\x7b`/`\x7d`
denote its literal braces). -/
def create_error_page (status_code : Nat) (status_text : String) (message : String) : String :=
  "<!DOCTYPE html>\n<html lang=\"en\">\n<head>\n    <meta charset=\"UTF-8\">\n" ++
  "    <meta name=\"viewport\" content=\"width=device-width, initial-scale=1.0\">\n" ++
  "    <title>" ++ toString status_code ++ " - " ++ status_text ++ "</title>\n" ++
  "    <style>\n        body \x7b\n" ++
  "            font-family: \x27Segoe UI\x27, Tahoma, Geneva, Verdana, sans-serif;\n" ++
  "            background: linear-gradient(135deg, #667eea 0%, #764ba2 100%);\n" ++
  "            display: flex;\n            justify-content: center;\n" ++
  "            align-items: center;\n            height: 100vh;\n" ++
  "            margin: 0;\n            color: #333;\n        \x7d\n" ++
  "        .error-container \x7b\n            background: white;\n" ++
  "            padding: 3rem;\n            border-radius: 15px;\n" ++
  "            box-shadow: 0 10px 40px rgba(0,0,0,0.3);\n" ++
  "            text-align: center;\n            max-width: 500px;\n        \x7d\n" ++
  "        .error-code \x7b\n            font-size: 5rem;\n" ++
  "            font-weight: bold;\n            color: #667eea;\n" ++
  "            margin: 0;\n        \x7d\n" ++
  "        .error-text \x7b\n            font-size: 1.5rem;\n" ++
  "            color: #666;\n            margin: 1rem 0;\n        \x7d\n" ++
  "        .error-message \x7b\n            color: #888;\n" ++
  "            margin: 1rem 0;\n        \x7d\n" ++
  "        .back-button \x7b\n            display: inline-block;\n" ++
  "            margin-top: 2rem;\n            padding: 0.8rem 2rem;\n" ++
  "            background: linear-gradient(135deg, #667eea 0%, #764ba2 100%);\n" ++
  "            color: white;\n            text-decoration: none;\n" ++
  "            border-radius: 25px;\n            transition: transform 0.3s;\n        \x7d\n" ++
  "        .back-button:hover \x7b\n            transform: translateY(-2px);\n        \x7d\n" ++
  "    </style>\n</head>\n<body>\n    <div class=\"error-container\">\n" ++
  "        <h1 class=\"error-code\">" ++ toString status_code ++ "</h1>\n" ++
  "        <h2 class=\"error-text\">" ++ status_text ++ "</h2>\n" ++
  "        <p class=\"error-message\">" ++ message ++ "</p>\n" ++
  "        <a href=\"/\" class=\"back-button\">‚Üê Back to Home</a>\n" ++
  "    </div>\n</body>\n</html>"

/-! ## Routing and the GET/HEAD handlers (src/main.py lines 343-379, 412-437) -/

/-- `get_content_type` (lines 73-82), with the `mimetypes` registry
abstracted as `guess` (`mimetypes.guess_type` returning `none` when the
type cannot be determined).  Falls back to `"text/plain"`. -/
def get_content_type (guess : String → Option String) (file_path : String) : String :=
  (guess file_path).getD "text/plain"

/-- The fixed route table of `handle_get_request` / `handle_head_request`. -/
def route_map : List (String × String) :=
  [("/", "index.html"), ("/book", "book.json"), ("/book.json", "book.json")]

/-- `path.split('?')[0]`: drop everything from the first `'?'` on. -/
def stripQuery (path : String) : String :=
  ⟨(splitOnPred (fun c => c = '?') path.data).headD path.data⟩

/-- Python `s.replace('..', '')`: remove every occurrence of `".."`,
scanning left to right, non-overlapping. -/
def removeDotDot : List Char → List Char
  | [] => []
  | [c] => [c]
  | c :: c2 :: rest =>
    if c = '.' ∧ c2 = '.' then removeDotDot rest
    else c :: removeDotDot (c2 :: rest)

/-- The traversal guard of lines 364 / 426:
`path.lstrip('/').replace('..', '')`. -/
def sanitizePath (p : String) : String :=
  ⟨removeDotDot (p.data.dropWhile (fun c => c = '/'))⟩

/-- Resource-name resolution shared by GET (lines 349-364): strip the
query, consult the route table, otherwise sanitize the path. -/
def resolve_get (path : String) : String :=
  let p := stripQuery path
  match dictGet p route_map with
  | some f => f
  | none => sanitizePath p

/-- Resource-name resolution of HEAD (lines 419-426), written in the
source as `route_map.get(path, path.lstrip('/').replace('..', ''))`. -/
def resolve_head (path : String) : String :=
  let p := stripQuery path
  match dictGet p route_map with
  | some f => f
  | none => sanitizePath p

/-- The response a handler passes to `build_response` (status code, status
text, body, content type, extra headers). -/
structure ResponseSpec where
  status_code : Nat
  status_text : String
  content : PyContent
  content_type : String
  extra_headers : List (String × String)
deriving DecidableEq

/-- `handle_get_request` (lines 343-379) with the filesystem behind
`read_file_safely` abstracted as `store` (`some` = successful read of the
named resource, `none` = any read failure) and the MIME registry as
`guess`.  Returns the response it sends. -/
def handle_get_request (store : String → Option PyContent)
    (guess : String → Option String) (path : String) : ResponseSpec :=
  let p := stripQuery path
  let file_path :=
    match dictGet p route_map with
    | some f => f
    | none => sanitizePath p
  match store file_path with
  | some content => ⟨200, "OK", content, get_content_type guess file_path, []⟩
  | none =>
    ⟨404, "Not Found",
      .text (create_error_page 404 "Not Found"
        ("The requested resource \"" ++ p ++ "\" was not found on this server.")),
      "text/html", []⟩

/-- `handle_head_request` (lines 412-437): same resolution and store lookup
as GET, but the response body is always the empty string. -/
def handle_head_request (store : String → Option PyContent)
    (guess : String → Option String) (path : String) : ResponseSpec :=
  let p := stripQuery path
  let file_path :=
    match dictGet p route_map with
    | some f => f
    | none => sanitizePath p
  match store file_path with
  | some _ => ⟨200, "OK", .text "", get_content_type guess file_path, []⟩
  | none => ⟨404, "Not Found", .text "", "text/html", []⟩

/-! ## JSON values and `handle_post_request` (src/main.py lines 381-410) -/

/-- JSON values, as `json.loads` produces them and `json.dumps` consumes
them. -/
inductive Json where
  | null : Json
  | jbool : Bool → Json
  | jnum : Int → Json
  | jstr : String → Json
  | jarr : List Json → Json
  | jobj : List (String × Json) → Json

/-- Hex digit used by `\uXXXX` escapes in `json.dumps` output. -/
def hexDigit (n : Nat) : Char :=
  if n < 10 then Char.ofNat (48 + n) else Char.ofNat (87 + n)

/-- Four-digit lower-case hex rendering of a code unit. -/
def hex4 (n : Nat) : List Char :=
  [hexDigit (n / 4096 % 16), hexDigit (n / 256 % 16), hexDigit (n / 16 % 16), hexDigit (n % 16)]

/-- The escaping `json.dumps` (default `ensure_ascii=True`) applies to one
character of a string. -/
def jsonEscapeChar (c : Char) : List Char :=
  if c = '"' then ['\\', '"']
  else if c = '\\' then ['\\', '\\']
  else if c = '\n' then ['\\', 'n']
  else if c = '\x0d' then ['\\', 'r']
  else if c = '\t' then ['\\', 't']
  else if c = '\x08' then ['\\', 'b']
  else if c = '\x0c' then ['\\', 'f']
  else if c.toNat < 32 then '\\' :: 'u' :: hex4 c.toNat
  else if c.toNat < 127 then [c]
  else if c.toNat < 0x10000 then '\\' :: 'u' :: hex4 c.toNat
  else
    '\\' :: 'u' :: hex4 (0xd800 + (c.toNat - 0x10000) / 1024) ++
      '\\' :: 'u' :: hex4 (0xdc00 + (c.toNat - 0x10000) % 1024)

/-- A JSON string literal as `json.dumps` renders it. -/
def jsonQuote (s : String) : String :=
  ⟨'"' :: (s.data.map jsonEscapeChar).flatten ++ ['"']⟩

mutual

/-- `json.dumps(v)` with default separators `(', ', ': ')`. -/
def dumpJson : Json → String
  | .null => "null"
  | .jbool true => "true"
  | .jbool false => "false"
  | .jnum n => toString n
  | .jstr s => jsonQuote s
  | .jarr xs => "[" ++ dumpArr xs ++ "]"
  | .jobj kvs => "\x7b" ++ dumpObj kvs ++ "\x7d"

def dumpArr : List Json → String
  | [] => ""
  | [x] => dumpJson x
  | x :: xs => dumpJson x ++ ", " ++ dumpArr xs

def dumpObj : List (String × Json) → String
  | [] => ""
  | [(k, v)] => jsonQuote k ++ ": " ++ dumpJson v
  | (k, v) :: kvs => jsonQuote k ++ ": " ++ dumpJson v ++ ", " ++ dumpObj kvs

end

/-- `2 * n` spaces: the indentation prefix at nesting depth `n`. -/
def indentSp (n : Nat) : String := ⟨List.replicate (2 * n) ' '⟩

mutual

/-- `json.dumps(v, indent=2)` at nesting depth `lvl` (item separator
`','` + newline + indent, key separator `': '`, empty containers inline). -/
def dumpJsonInd (lvl : Nat) : Json → String
  | .null => "null"
  | .jbool true => "true"
  | .jbool false => "false"
  | .jnum n => toString n
  | .jstr s => jsonQuote s
  | .jarr [] => "[]"
  | .jarr (x :: xs) =>
    "[\n" ++ dumpArrInd (lvl + 1) (x :: xs) ++ "\n" ++ indentSp lvl ++ "]"
  | .jobj [] => "\x7b\x7d"
  | .jobj (kv :: kvs) =>
    "\x7b\n" ++ dumpObjInd (lvl + 1) (kv :: kvs) ++ "\n" ++ indentSp lvl ++ "\x7d"

def dumpArrInd (lvl : Nat) : List Json → String
  | [] => ""
  | [x] => indentSp lvl ++ dumpJsonInd lvl x
  | x :: xs => indentSp lvl ++ dumpJsonInd lvl x ++ ",\n" ++ dumpArrInd lvl xs

def dumpObjInd (lvl : Nat) : List (String × Json) → String
  | [] => ""
  | [(k, v)] => indentSp lvl ++ jsonQuote k ++ ": " ++ dumpJsonInd lvl v
  | (k, v) :: kvs =>
    indentSp lvl ++ jsonQuote k ++ ": " ++ dumpJsonInd lvl v ++ ",\n" ++ dumpObjInd lvl kvs

end

/-- The field list of the echo endpoint's success envelope (lines 392-397);
`now` stands for `datetime.now().isoformat()`. -/
def echo_fields (data : Json) (now : String) : List (String × Json) :=
  [("success", .jbool true),
   ("message", .jstr "Data received successfully"),
   ("received", data),
   ("timestamp", .jstr now)]

/-- The echo endpoint's success envelope as a JSON object. -/
def echo_envelope (data : Json) (now : String) : Json := .jobj (echo_fields data now)

/-- Line 403: `{'success': False, 'error': 'Invalid JSON'}`. -/
def invalid_json_error : Json :=
  .jobj [("success", .jbool false), ("error", .jstr "Invalid JSON")]

/-- `handle_post_request` (lines 381-410), with `json.loads` abstracted as
`jparse` (`none` = `json.JSONDecodeError`) and the clock as `now`.  An
empty body skips parsing and uses `{}` (`json.loads(body) if body else {}`);
the success body is `json.dumps(response_data, indent=2)`, the error body
`json.dumps(error_data)`. -/
def handle_post_request (jparse : String → Option Json) (now : String)
    (path : String) (body : String) : ResponseSpec :=
  if path = "/api/echo" then
    match (if body = "" then some (Json.jobj []) else jparse body) with
    | some data =>
      ⟨200, "OK", .text (dumpJsonInd 0 (echo_envelope data now)), "application/json", []⟩
    | none =>
      ⟨400, "Bad Request", .text (dumpJson invalid_json_error), "application/json", []⟩
  else
    ⟨404, "Not Found",
      .text (create_error_page 404 "Not Found"
        ("The API endpoint \"" ++ path ++ "\" does not exist.")),
      "text/html", []⟩

/-! ## Spec-side observation helpers -/

/-- The header lines of a request: the lines after the request line, up to
(excluding) the first empty line. -/
def takeUntilBlank : List String → List String
  | [] => []
  | line :: rest => if line = "" then [] else line :: takeUntilBlank rest

/-- The value carried by the last header line (in source order) whose
parsed key is `k`. -/
def lastHeaderVal (k : String) : List String → Option String
  | [] => none
  | line :: rest =>
    match lastHeaderVal k rest with
    | some v => some v
    | none =>
      match lineKV line with
      | some (k', v) => if k' = k then some v else none
      | none => none

/-- Whether a character list contains `".."` as a (contiguous) substring. -/
def hasDD : List Char → Bool
  | [] => false
  | [_] => false
  | c :: c2 :: rest => if c = '.' ∧ c2 = '.' then true else hasDD (c2 :: rest)

/-! ## Helper lemmas -/

theorem str_data_append (a b : String) : (a ++ b).data = a.data ++ b.data := rfl

theorem str_mk_data (l : List Char) : (String.mk l).data = l := rfl

theorem strBytes_append (a b : String) : strBytes (a ++ b) = strBytes a ++ strBytes b := by
  simp [strBytes, str_data_append]

theorem strBytes_empty : strBytes "" = [] := rfl

theorem strBytes_crlf : strBytes "\r\n" = [13, 10] := by decide

theorem pySplit_of_empty : pySplit "" = [] := by decide

/-- C1: for every raw request string whose first line (split on `"\r\n"`)
contains at least two whitespace-separated tokens, `parse_request` succeeds,
the returned method is the first token, the returned path is the second
token, and the version is the third token when present, else `"HTTP/1.1"`. -/
theorem parse_request_wellformed (s first : String) (rest : List String)
    (m p : String) (ts : List String)
    (h1 : splitLinesCRLF s = first :: rest) (h2 : pySplit first = m :: p :: ts) :
    ∃ r, parse_request s = some r ∧ r.method = m ∧ r.path = p ∧
      r.http_version = ts.headD "HTTP/1.1" := by
  have hne : first ≠ "" := by
    intro he
    rw [he, pySplit_of_empty] at h2
    exact List.noConfusion h2
  simp only [parse_request, h1, if_neg hne, h2]
  exact ⟨_, rfl, rfl, rfl, rfl⟩

/-- C1 witness: a concrete three-token request line parses as claimed. -/
theorem parse_request_wellformed_witness :
    ∃ r, parse_request "GET /x HTTP/1.0\r\n\r\n" = some r ∧ r.method = "GET" ∧
      r.path = "/x" ∧ r.http_version = List.headD ["HTTP/1.0"] "HTTP/1.1" :=
  parse_request_wellformed "GET /x HTTP/1.0\r\n\r\n" "GET /x HTTP/1.0" ["", ""]
    "GET" "/x" ["HTTP/1.0"] (by decide) (by decide)

/-- C6: `parse_request` fails on input with zero lines, an empty first
line, or a first line with fewer than two whitespace-separated tokens. -/
theorem parse_request_malformed (s : String)
    (h : splitLinesCRLF s = [] ∨ ∃ first rest, splitLinesCRLF s = first :: rest ∧
        (first = "" ∨ (pySplit first).length < 2)) :
    parse_request s = none := by
  rcases h with h | ⟨first, rest, h1, h2⟩
  · simp only [parse_request, h]
  · by_cases he : first = ""
    · simp only [parse_request, h1, if_pos he]
    · rcases h2 with h2 | h2
      · exact absurd h2 he
      · rcases hl : pySplit first with _ | ⟨a, _ | ⟨b, ts⟩⟩
        · simp only [parse_request, h1, if_neg he, hl]
        · simp only [parse_request, h1, if_neg he, hl]
        · rw [hl] at h2
          simp at h2
          omega

/-- C6 witness: the empty string (empty first line) fails to parse. -/
theorem parse_request_malformed_witness : parse_request "" = none :=
  parse_request_malformed "" (Or.inr ⟨"", [], by decide, Or.inl rfl⟩)

theorem hasKey_iff_mem (k : String) (d : List (String × String)) :
    hasKey k d = true ↔ k ∈ d.map Prod.fst := by
  induction d with
  | nil => simp [hasKey]
  | cons q rest ih =>
    simp only [hasKey, Bool.or_eq_true, beq_iff_eq, ih, List.map_cons, List.mem_cons]
    exact or_congr eq_comm Iff.rfl

theorem dictGet_map_assign (k v : String) (d : List (String × String))
    (h : hasKey k d = true) :
    dictGet k (d.map (fun q => if q.1 = k then (k, v) else q)) = some v := by
  induction d with
  | nil => simp [hasKey] at h
  | cons q rest ih =>
    simp only [hasKey, Bool.or_eq_true, beq_iff_eq] at h
    by_cases hq : q.1 = k
    · rw [List.map_cons, if_pos hq]
      simp [dictGet]
    · simp only [List.map_cons, if_neg hq, dictGet]
      exact ih (h.resolve_left hq)

theorem dictGet_eq_none_of_not_hasKey (k : String) (d : List (String × String))
    (h : ¬ hasKey k d = true) : dictGet k d = none := by
  induction d with
  | nil => rfl
  | cons q rest ih =>
    simp only [hasKey, Bool.or_eq_true, beq_iff_eq] at h
    push_neg at h
    simp only [dictGet, if_neg h.1]
    exact ih (by simp [h.2])

theorem dictGet_append_single (k k' v : String) (d : List (String × String))
    (h : k' ≠ k) : dictGet k (d ++ [(k', v)]) = dictGet k d := by
  induction d with
  | nil => simp [dictGet, if_neg h]
  | cons q rest ih =>
    simp only [List.cons_append, dictGet]
    by_cases hq : q.1 = k <;> simp [hq, ih]

theorem dictGet_append_single_self (k v : String) (d : List (String × String))
    (h : dictGet k d = none) : dictGet k (d ++ [(k, v)]) = some v := by
  induction d with
  | nil => simp [dictGet]
  | cons q rest ih =>
    simp only [dictGet] at h
    simp only [List.cons_append, dictGet]
    by_cases hq : q.1 = k
    · rw [if_pos hq] at h; exact Option.noConfusion h
    · rw [if_neg hq] at h
      rw [if_neg hq]
      exact ih h

theorem dictGet_insert_self (d : List (String × String)) (k v : String) :
    dictGet k (dictInsert d k v) = some v := by
  by_cases hk : hasKey k d = true
  · simp only [dictInsert, if_pos hk]
    exact dictGet_map_assign k v d hk
  · simp only [dictInsert, if_neg hk]
    exact dictGet_append_single_self k v d (dictGet_eq_none_of_not_hasKey k d hk)

theorem dictGet_map_assign_ne (k k' v : String) (d : List (String × String))
    (h : k' ≠ k) :
    dictGet k (d.map (fun q => if q.1 = k' then (k', v) else q)) = dictGet k d := by
  induction d with
  | nil => rfl
  | cons q rest ih =>
    by_cases hq : q.1 = k'
    · simp only [List.map_cons, if_pos hq, dictGet]
      rw [if_neg h, if_neg (by rw [hq]; exact h)]
      exact ih
    · simp only [List.map_cons, if_neg hq, dictGet]
      by_cases hqk : q.1 = k
      · rw [if_pos hqk, if_pos hqk]
      · rw [if_neg hqk, if_neg hqk]; exact ih

theorem dictGet_insert_ne (d : List (String × String)) (k k' v : String)
    (h : k' ≠ k) : dictGet k (dictInsert d k' v) = dictGet k d := by
  by_cases hk : hasKey k' d = true
  · simp only [dictInsert, if_pos hk]
    exact dictGet_map_assign_ne k k' v d h
  · simp only [dictInsert, if_neg hk]
    exact dictGet_append_single k k' v d h

theorem keys_dictInsert_of_hasKey (d : List (String × String)) (k v : String)
    (hk : hasKey k d = true) :
    (dictInsert d k v).map Prod.fst = d.map Prod.fst := by
  simp only [dictInsert, if_pos hk, List.map_map]
  apply List.map_congr_left
  intro q _
  by_cases hq : q.1 = k
  · simp [hq]
  · simp [hq]

theorem nodup_keys_dictInsert (d : List (String × String)) (k v : String)
    (h : (d.map Prod.fst).Nodup) : ((dictInsert d k v).map Prod.fst).Nodup := by
  by_cases hk : hasKey k d = true
  · rw [keys_dictInsert_of_hasKey d k v hk]; exact h
  · simp only [dictInsert, if_neg hk, List.map_append]
    rw [List.nodup_append]
    refine ⟨h, List.nodup_singleton _, ?_⟩
    intro a ha hb
    simp only [List.map_cons, List.map_nil, List.mem_singleton] at hb
    exact hk ((hasKey_iff_mem k d).mpr (hb ▸ ha))

theorem nodup_keys_parseHeaders : ∀ (ls : List String) (acc : List (String × String)),
    (acc.map Prod.fst).Nodup → ((parseHeaders acc ls).1.map Prod.fst).Nodup := by
  intro ls
  induction ls with
  | nil => intro acc h; exact h
  | cons line rest ih =>
    intro acc h
    by_cases hb : line = ""
    · simpa [parseHeaders, hb] using h
    · rcases hkv : lineKV line with _ | ⟨k, v⟩
      · simpa [parseHeaders, hb, hkv] using ih acc h
      · simpa [parseHeaders, hb, hkv] using ih (dictInsert acc k v) (nodup_keys_dictInsert acc k v h)

theorem dictGet_parseHeaders (k : String) : ∀ (ls : List String) (acc : List (String × String)),
    dictGet k (parseHeaders acc ls).1 =
      match lastHeaderVal k (takeUntilBlank ls) with
      | some v => some v
      | none => dictGet k acc := by
  intro ls
  induction ls with
  | nil => intro acc; simp [parseHeaders, takeUntilBlank, lastHeaderVal]
  | cons line rest ih =>
    intro acc
    by_cases hb : line = ""
    · simp [parseHeaders, takeUntilBlank, hb, lastHeaderVal]
    · rcases hkv : lineKV line with _ | ⟨k', v⟩
      · simp only [parseHeaders, if_neg hb, hkv, takeUntilBlank, lastHeaderVal]
        rw [ih acc]
        rcases lastHeaderVal k (takeUntilBlank rest) with _ | w <;> simp
      · simp only [parseHeaders, if_neg hb, hkv, takeUntilBlank, lastHeaderVal]
        rw [ih (dictInsert acc k' v)]
        rcases lastHeaderVal k (takeUntilBlank rest) with _ | w
        · by_cases hk : k' = k
          · simp [hk, dictGet_insert_self]
          · simp [hk, dictGet_insert_ne acc k k' v hk]
        · simp

/-- C7 counterexample: on a request whose two header lines share the key
`"x-a"`, the stored value is `"2"` — the later occurrence DID overwrite
the earlier one's value, contradicting the claim that the first
occurrence governs. -/
theorem parse_request_first_occurrence_counterexample :
    parse_request "GET / HTTP/1.1\r\nx-a: 1\r\nx-a: 2\r\n\r\n" =
      some ⟨"GET", "/", "HTTP/1.1", [("x-a", "2")], ""⟩ := by decide

/-- C7 amended: header keys are unique, and the stored value for a key is
the one of the LAST header line (in source order) carrying that key —
each dict assignment overwrites the previous value. -/
theorem parse_request_headers_spec (s : String) (r : ParsedRequest)
    (h : parse_request s = some r) (k : String) :
    (r.headers.map Prod.fst).Nodup ∧
    dictGet k r.headers = lastHeaderVal k (takeUntilBlank ((splitLinesCRLF s).drop 1)) := by
  rcases hls : splitLinesCRLF s with _ | ⟨first, rest⟩
  · simp [parse_request, hls] at h
  · by_cases he : first = ""
    · simp [parse_request, hls, he] at h
    · rcases hp : pySplit first with _ | ⟨m, _ | ⟨p, ts⟩⟩
      · simp [parse_request, hls, he, hp] at h
      · simp [parse_request, hls, he, hp] at h
      · simp only [parse_request, hls, if_neg he, hp, Option.some.injEq] at h
        have hheaders : r.headers = (parseHeaders [] rest).1 := by
          rw [← h]
        constructor
        · rw [hheaders]
          exact nodup_keys_parseHeaders rest [] (by simp)
        · rw [hheaders, List.drop_one, List.tail_cons]
          rw [dictGet_parseHeaders k rest []]
          rcases lastHeaderVal k (takeUntilBlank rest) with _ | w <;> simp [dictGet]

/-- C7 witness: the amended statement evaluated on a concrete request with
a repeated header key. -/
theorem parse_request_headers_spec_witness :
    (((⟨"GET", "/", "HTTP/1.1", [("a", "2")], ""⟩ : ParsedRequest).headers.map Prod.fst).Nodup ∧
      dictGet "a" (⟨"GET", "/", "HTTP/1.1", [("a", "2")], ""⟩ : ParsedRequest).headers =
        lastHeaderVal "a"
          (takeUntilBlank ((splitLinesCRLF "GET / HTTP/1.1\r\na: 1\r\na: 2\r\n\r\n").drop 1))) :=
  parse_request_headers_spec "GET / HTTP/1.1\r\na: 1\r\na: 2\r\n\r\n"
    ⟨"GET", "/", "HTTP/1.1", [("a", "2")], ""⟩ (by decide) "a"

theorem removeDotDot_cons_ne (x : Char) (xs : List Char) (h : x ≠ '.') :
    removeDotDot (x :: xs) = x :: removeDotDot xs := by
  cases xs with
  | nil => rfl
  | cons y ys =>
    simp only [removeDotDot]
    rw [if_neg (fun hc => h hc.1)]

/-- `hasDD` decides exactly "contains `".."` as a contiguous substring". -/
theorem hasDD_eq_true_iff (l : List Char) :
    hasDD l = true ↔ ∃ a b, l = a ++ '.' :: '.' :: b := by
  induction l with
  | nil =>
    simp only [hasDD, Bool.false_eq_true, false_iff]
    rintro ⟨a, b, h⟩
    exact absurd (congrArg List.length h) (by simp; omega)
  | cons c rest ih =>
    cases rest with
    | nil =>
      simp only [hasDD, Bool.false_eq_true, false_iff]
      rintro ⟨a, b, h⟩
      exact absurd (congrArg List.length h) (by simp; omega)
    | cons c2 t =>
      by_cases hdd : c = '.' ∧ c2 = '.'
      · simp only [hasDD, if_pos hdd, true_iff]
        exact ⟨[], t, by rw [hdd.1, hdd.2]; rfl⟩
      · rw [show hasDD (c :: c2 :: t) = hasDD (c2 :: t) from by
          simp [hasDD, hdd]]
        rw [ih]
        constructor
        · rintro ⟨a, b, h⟩
          exact ⟨c :: a, b, by rw [List.cons_append, h]⟩
        · rintro ⟨a, b, h⟩
          cases a with
          | nil =>
            simp only [List.nil_append, List.cons.injEq] at h
            exact absurd ⟨h.1, h.2.1⟩ hdd
          | cons x a2 =>
            simp only [List.cons_append, List.cons.injEq] at h
            exact ⟨a2, b, h.2⟩

theorem hasDD_removeDotDot (l : List Char) : hasDD (removeDotDot l) = false := by
  have key : ∀ (n : Nat) (l : List Char), l.length ≤ n → hasDD (removeDotDot l) = false := by
    intro n
    induction n with
    | zero =>
      intro l hl
      have : l = [] := List.eq_nil_of_length_eq_zero (Nat.le_zero.mp hl)
      rw [this]; rfl
    | succ n ih =>
      intro l hl
      match l with
      | [] => rfl
      | [c] => rfl
      | c :: c2 :: rest =>
        simp only [List.length_cons] at hl
        by_cases hdd : c = '.' ∧ c2 = '.'
        · rw [show removeDotDot (c :: c2 :: rest) = removeDotDot rest from by
            simp [removeDotDot, hdd]]
          exact ih rest (by omega)
        · rw [show removeDotDot (c :: c2 :: rest) = c :: removeDotDot (c2 :: rest) from by
            simp [removeDotDot, hdd]]
          have ih2 : hasDD (removeDotDot (c2 :: rest)) = false :=
            ih (c2 :: rest) (by simp; omega)
          by_cases hc : c = '.'
          · have hc2 : c2 ≠ '.' := fun h2 => hdd ⟨hc, h2⟩
            rw [removeDotDot_cons_ne c2 rest hc2] at ih2 ⊢
            simp only [hasDD]
            rw [if_neg (fun hx => hc2 hx.2)]
            exact ih2
          · rcases hr : removeDotDot (c2 :: rest) with _ | ⟨d, t⟩
            · rfl
            · simp only [hasDD]
              rw [if_neg (fun hx => hc hx.1)]
              rw [hr] at ih2
              exact ih2
  exact key l.length l le_rfl

/-- C9: the fallback resource name computed for GET/HEAD — leading slashes
stripped, then every `".."` removed by one left-to-right non-overlapping
pass — never contains `".."` as a substring. -/
theorem sanitizePath_no_dotdot (p : String) : hasDD (sanitizePath p).data = false :=
  hasDD_removeDotDot (p.data.dropWhile (fun c => c = '/'))

/-- C2: a GET first strips the query suffix, then resolves `/` to
`index.html`, `/book` and `/book.json` to `book.json`, and any other path
to the sanitized path; a successful read gives 200 with the content and
the MIME-resolved type, any read failure gives 404 with the error page. -/
theorem handle_get_request_spec (store : String → Option PyContent)
    (guess : String → Option String) (path : String) :
    (stripQuery path = "/" → resolve_get path = "index.html") ∧
    (stripQuery path = "/book" → resolve_get path = "book.json") ∧
    (stripQuery path = "/book.json" → resolve_get path = "book.json") ∧
    (stripQuery path ≠ "/" → stripQuery path ≠ "/book" → stripQuery path ≠ "/book.json" →
      resolve_get path = sanitizePath (stripQuery path)) ∧
    (∀ c, store (resolve_get path) = some c →
      handle_get_request store guess path =
        ⟨200, "OK", c, get_content_type guess (resolve_get path), []⟩) ∧
    (store (resolve_get path) = none →
      handle_get_request store guess path =
        ⟨404, "Not Found",
          .text (create_error_page 404 "Not Found"
            ("The requested resource \"" ++ stripQuery path ++ "\" was not found on this server.")),
          "text/html", []⟩) := by
  have hfp : handle_get_request store guess path =
      (match store (resolve_get path) with
       | some c => (⟨200, "OK", c, get_content_type guess (resolve_get path), []⟩ : ResponseSpec)
       | none =>
         ⟨404, "Not Found",
           .text (create_error_page 404 "Not Found"
             ("The requested resource \"" ++ stripQuery path ++ "\" was not found on this server.")),
           "text/html", []⟩) := rfl
  refine ⟨?_, ?_, ?_, ?_, ?_, ?_⟩
  · intro h; simp [resolve_get, route_map, dictGet, h]
  · intro h; simp [resolve_get, route_map, dictGet, h]
  · intro h; simp [resolve_get, route_map, dictGet, h]
  · intro h1 h2 h3
    simp only [resolve_get, route_map, dictGet]
    rw [if_neg (fun hh => h1 hh.symm), if_neg (fun hh => h2 hh.symm),
      if_neg (fun hh => h3 hh.symm)]
  · intro c hc; rw [hfp, hc]
  · intro hc; rw [hfp, hc]

/-- C2 witness: serving `/` from a store holding `index.html` yields the
200 response with the stored content. -/
theorem handle_get_request_spec_witness :
    handle_get_request
      (fun n => if n = "index.html" then some (PyContent.text "<h1>home</h1>") else none)
      (fun _ => some "text/html") "/" =
      ⟨200, "OK", PyContent.text "<h1>home</h1>",
        get_content_type (fun _ => some "text/html") (resolve_get "/"), []⟩ :=
  (handle_get_request_spec
      (fun n => if n = "index.html" then some (PyContent.text "<h1>home</h1>") else none)
      (fun _ => some "text/html") "/").2.2.2.2.1
    (PyContent.text "<h1>home</h1>") (by decide)

/-- C5: HEAD resolves the resource exactly as GET does (same query
stripping, route table and sanitization) and does the same store lookup,
but the body is always empty: success gives 200 with the resolved content
type and a Content-Length of `"0"` (computed from the empty body),
failure gives 404 with an empty body. -/
theorem handle_head_request_spec (store : String → Option PyContent)
    (guess : String → Option String) (path : String) :
    resolve_head path = resolve_get path ∧
    (∀ c, store (resolve_head path) = some c →
      handle_head_request store guess path =
        ⟨200, "OK", .text "", get_content_type guess (resolve_head path), []⟩) ∧
    (store (resolve_head path) = none →
      handle_head_request store guess path = ⟨404, "Not Found", .text "", "text/html", []⟩) ∧
    (∀ date, dictGet "Content-Length"
        (dictUpdate (standardHeaders date (get_content_type guess (resolve_head path))
          (.text "")) []) = some "0") := by
  have hfp : handle_head_request store guess path =
      (match store (resolve_head path) with
       | some _ => (⟨200, "OK", .text "", get_content_type guess (resolve_head path), []⟩ : ResponseSpec)
       | none => ⟨404, "Not Found", .text "", "text/html", []⟩) := rfl
  refine ⟨rfl, ?_, ?_, ?_⟩
  · intro c hc; rw [hfp, hc]
  · intro hc; rw [hfp, hc]
  · intro date
    simp only [dictUpdate, standardHeaders, dictGet]
    norm_num
    rfl

/-- C5 witness: a HEAD for a missing resource yields the bodyless 404. -/
theorem handle_head_request_spec_witness :
    handle_head_request (fun _ => none) (fun _ => none) "/missing.xyz" =
      ⟨404, "Not Found", .text "", "text/html", []⟩ :=
  (handle_head_request_spec (fun _ => none) (fun _ => none) "/missing.xyz").2.2.1 rfl

/-- C4: POST recognizes only `/api/echo`: an unparsable non-empty body
gives 400 with the JSON body `{"success": false, "error": "Invalid JSON"}`
and content type `application/json`; a parsable body gives 200 with a JSON
envelope whose `success` is `true` and whose `received` is the parsed
body; any other POST path gives 404 with the HTML error page. -/
theorem handle_post_request_spec (jparse : String → Option Json) (now path body : String) :
    (path = "/api/echo" → body ≠ "" → jparse body = none →
      handle_post_request jparse now path body =
        ⟨400, "Bad Request", .text (dumpJson invalid_json_error), "application/json", []⟩ ∧
      dumpJson invalid_json_error = "\x7b\"success\": false, \"error\": \"Invalid JSON\"\x7d") ∧
    (∀ d, path = "/api/echo" → body ≠ "" → jparse body = some d →
      handle_post_request jparse now path body =
        ⟨200, "OK", .text (dumpJsonInd 0 (echo_envelope d now)), "application/json", []⟩ ∧
      dictGet "success" (echo_fields d now) = some (Json.jbool true) ∧
      dictGet "received" (echo_fields d now) = some d) ∧
    (path ≠ "/api/echo" →
      handle_post_request jparse now path body =
        ⟨404, "Not Found",
          .text (create_error_page 404 "Not Found"
            ("The API endpoint \"" ++ path ++ "\" does not exist.")),
          "text/html", []⟩) := by
  refine ⟨?_, ?_, ?_⟩
  · intro hp hb hj
    refine ⟨?_, by decide⟩
    simp [handle_post_request, hp, hb, hj]
  · intro d hp hb hj
    refine ⟨?_, ?_, ?_⟩
    · simp [handle_post_request, hp, hb, hj]
    · simp [echo_fields, dictGet]
    · simp only [echo_fields, dictGet]
      rw [if_neg (by decide), if_neg (by decide)]
      simp
  · intro hp
    simp [handle_post_request, hp]

/-- C4 witness: `POST /api/echo` with the unparsable body `"not-json"`
yields the 400 JSON error response. -/
theorem handle_post_request_spec_witness :
    handle_post_request (fun _ => none) "T" "/api/echo" "not-json" =
      ⟨400, "Bad Request", .text (dumpJson invalid_json_error), "application/json", []⟩ ∧
    dumpJson invalid_json_error = "\x7b\"success\": false, \"error\": \"Invalid JSON\"\x7d" :=
  (handle_post_request_spec (fun _ => none) "T" "/api/echo" "not-json").1 rfl
    (by decide) rfl

/-- C10: a POST to `/api/echo` with an empty body never consults the JSON
parser (the response is the same for every parser) and answers 200 with
`received` equal to the empty object and `success` equal to `true`. -/
theorem handle_post_request_empty_body (jparse jparse2 : String → Option Json) (now : String) :
    handle_post_request jparse now "/api/echo" "" =
      ⟨200, "OK", .text (dumpJsonInd 0 (echo_envelope (Json.jobj []) now)),
        "application/json", []⟩ ∧
    handle_post_request jparse now "/api/echo" "" =
      handle_post_request jparse2 now "/api/echo" "" ∧
    dictGet "success" (echo_fields (Json.jobj []) now) = some (Json.jbool true) ∧
    dictGet "received" (echo_fields (Json.jobj []) now) = some (Json.jobj []) := by
  refine ⟨rfl, rfl, by simp [echo_fields, dictGet], ?_⟩
  simp only [echo_fields, dictGet]
  rw [if_neg (by decide), if_neg (by decide)]
  simp

theorem digitChar_ne_13 (n : Nat) : Nat.digitChar n ≠ '\x0d' := by
  by_cases h : n < 16
  · interval_cases n <;> decide
  · unfold Nat.digitChar
    repeat rw [if_neg (by omega)]
    decide

theorem toDigitsCore_ne_13 : ∀ (fuel n : Nat) (acc : List Char),
    (∀ c ∈ acc, c ≠ '\x0d') → ∀ c ∈ Nat.toDigitsCore 10 fuel n acc, c ≠ '\x0d' := by
  intro fuel
  induction fuel with
  | zero => intro n acc hacc c hc; exact hacc c hc
  | succ fuel ih =>
    intro n acc hacc c hc
    simp only [Nat.toDigitsCore] at hc
    split at hc
    · rcases List.mem_cons.mp hc with h | h
      · rw [h]; exact digitChar_ne_13 _
      · exact hacc c h
    · refine ih (n / 10) (Nat.digitChar (n % 10) :: acc) ?_ c hc
      intro d hd
      rcases List.mem_cons.mp hd with h | h
      · rw [h]; exact digitChar_ne_13 _
      · exact hacc d h

theorem toString_nat_ne_13 (n : Nat) : ∀ c ∈ (toString n).data, c ≠ '\x0d' := by
  intro c hc
  exact toDigitsCore_ne_13 (n + 1) n [] (by intro d hd; simp at hd) c hc

theorem char_eq_13 (c : Char) (h : c.toNat = 13) : c = '\x0d' := by
  have h2 := Char.ofNat_toNat c
  rw [h] at h2
  rw [← h2]

theorem mem_utf8Char_ne_13 (c : Char) (hc : c ≠ '\x0d') : ∀ b ∈ utf8Char c, b ≠ 13 := by
  have hn : c.toNat ≠ 13 := fun h => hc (char_eq_13 c h)
  intro b hb
  simp only [utf8Char] at hb
  split at hb
  · simp at hb; omega
  · split at hb
    · simp at hb; rcases hb with hb | hb <;> omega
    · split at hb
      · simp at hb; rcases hb with hb | hb | hb <;> omega
      · simp at hb; rcases hb with hb | hb | hb | hb <;> omega

theorem utf8Char_ne_nil (c : Char) : utf8Char c ≠ [] := by
  simp only [utf8Char]
  split
  · simp
  · split
    · simp
    · split <;> simp

theorem mem_strBytes_ne_13 (s : String) (hs : ∀ c ∈ s.data, c ≠ '\x0d') :
    ∀ b ∈ strBytes s, b ≠ 13 := by
  intro b hb
  simp only [strBytes, List.mem_flatten, List.mem_map] at hb
  obtain ⟨l, ⟨c, hcs, rfl⟩, hbl⟩ := hb
  exact mem_utf8Char_ne_13 c (hs c hcs) b hbl

theorem strBytes_ne_nil (s : String) (h : s.data ≠ []) : strBytes s ≠ [] := by
  cases hd : s.data with
  | nil => exact absurd hd h
  | cons c cs =>
    simp only [strBytes, hd, List.map_cons, List.flatten_cons]
    intro hne
    exact utf8Char_ne_nil c (List.append_eq_nil.mp hne).1

theorem isTermAt_cons_ne (b : Nat) (rest : List Nat) (h : b ≠ 13) :
    isTermAt (b :: rest) = false := by
  rcases rest with _ | ⟨b2, _ | ⟨b3, _ | ⟨b4, t⟩⟩⟩ <;> simp [isTermAt, h]

theorem dropAfterTerm_cons_ne (b : Nat) (rest : List Nat) (h : b ≠ 13) :
    dropAfterTerm (b :: rest) = dropAfterTerm rest := by
  simp [dropAfterTerm, isTermAt_cons_ne b rest h]

theorem countTerm_cons_ne (b : Nat) (rest : List Nat) (h : b ≠ 13) :
    countTerm (b :: rest) = countTerm rest := by
  simp [countTerm, isTermAt_cons_ne b rest h]

theorem dropAfterTerm_skip (xs ys : List Nat) (h : ∀ b ∈ xs, b ≠ 13) :
    dropAfterTerm (xs ++ ys) = dropAfterTerm ys := by
  induction xs with
  | nil => rfl
  | cons b rest ih =>
    rw [List.cons_append, dropAfterTerm_cons_ne b _ (h b (by simp))]
    exact ih (fun d hd => h d (by simp [hd]))

theorem countTerm_skip (xs ys : List Nat) (h : ∀ b ∈ xs, b ≠ 13) :
    countTerm (xs ++ ys) = countTerm ys := by
  induction xs with
  | nil => rfl
  | cons b rest ih =>
    rw [List.cons_append, countTerm_cons_ne b _ (h b (by simp))]
    exact ih (fun d hd => h d (by simp [hd]))

theorem isTermAt_crlf_cons (b : Nat) (zs : List Nat) (hb : b ≠ 13) :
    isTermAt (13 :: 10 :: b :: zs) = false := by
  rcases zs with _ | ⟨z, t⟩ <;> simp [isTermAt, hb]

theorem dropAfterTerm_crlf_cons (b : Nat) (zs : List Nat) (hb : b ≠ 13) :
    dropAfterTerm (13 :: 10 :: b :: zs) = dropAfterTerm (b :: zs) := by
  rw [show dropAfterTerm (13 :: 10 :: b :: zs) = dropAfterTerm (10 :: b :: zs) from by
    simp [dropAfterTerm, isTermAt_crlf_cons b zs hb]]
  exact dropAfterTerm_cons_ne 10 _ (by omega)

theorem countTerm_crlf_cons (b : Nat) (zs : List Nat) (hb : b ≠ 13) :
    countTerm (13 :: 10 :: b :: zs) = countTerm (b :: zs) := by
  rw [show countTerm (13 :: 10 :: b :: zs) = countTerm (10 :: b :: zs) from by
    simp [countTerm, isTermAt_crlf_cons b zs hb]]
  exact countTerm_cons_ne 10 _ (by omega)

theorem dropAfterTerm_term (ys : List Nat) :
    dropAfterTerm (13 :: 10 :: 13 :: 10 :: ys) = some ys := by
  simp [dropAfterTerm, isTermAt]

theorem joinCRLF_cons_append (l : List Nat) (ls : List (List Nat)) (tail : List Nat) :
    joinCRLF (l :: ls) ++ tail = l ++ 13 :: 10 :: (joinCRLF ls ++ tail) := by
  simp [joinCRLF, List.append_assoc]

theorem dropAfterTerm_header_block : ∀ (ls : List (List Nat)) (body : List Nat),
    ls ≠ [] → (∀ l ∈ ls, l ≠ [] ∧ ∀ b ∈ l, b ≠ 13) →
    dropAfterTerm (joinCRLF ls ++ 13 :: 10 :: body) = some body := by
  intro ls
  induction ls with
  | nil => intro body h; exact absurd rfl h
  | cons l ls ih =>
    intro body _ hg
    obtain ⟨hlne, hl13⟩ := hg l (by simp)
    rw [joinCRLF_cons_append, dropAfterTerm_skip l _ hl13]
    cases ls with
    | nil =>
      simp only [joinCRLF, List.nil_append]
      exact dropAfterTerm_term body
    | cons l2 ls2 =>
      obtain ⟨hl2ne, hl213⟩ := hg l2 (by simp)
      cases l2 with
      | nil => exact absurd rfl hl2ne
      | cons b t =>
        have hb : b ≠ 13 := hl213 b (by simp)
        rw [joinCRLF_cons_append, List.cons_append,
          dropAfterTerm_crlf_cons b _ hb, ← List.cons_append,
          ← joinCRLF_cons_append]
        exact ih body (by simp) (fun l3 hl3 => hg l3 (by simp [hl3]))

theorem countTerm_header_block : ∀ (ls : List (List Nat)),
    ls ≠ [] → (∀ l ∈ ls, l ≠ [] ∧ ∀ b ∈ l, b ≠ 13) →
    countTerm (joinCRLF ls ++ [13, 10]) = 1 := by
  intro ls
  induction ls with
  | nil => intro h; exact absurd rfl h
  | cons l ls ih =>
    intro _ hg
    obtain ⟨hlne, hl13⟩ := hg l (by simp)
    rw [joinCRLF_cons_append, countTerm_skip l _ hl13]
    cases ls with
    | nil =>
      simp only [joinCRLF, List.nil_append]
      decide
    | cons l2 ls2 =>
      obtain ⟨hl2ne, hl213⟩ := hg l2 (by simp)
      cases l2 with
      | nil => exact absurd rfl hl2ne
      | cons b t =>
        have hb : b ≠ 13 := hl213 b (by simp)
        rw [joinCRLF_cons_append, List.cons_append,
          countTerm_crlf_cons b _ hb, ← List.cons_append,
          ← joinCRLF_cons_append]
        exact ih (by simp) (fun l3 hl3 => hg l3 (by simp [hl3]))

theorem renderHeaderLines_bytes : ∀ (hs : List (String × String)) (sl : String) (body : List Nat),
    strBytes (sl ++ "\r\n" ++ renderHeaderLines hs ++ "\r\n") ++ body =
      joinCRLF (strBytes sl :: hs.map (fun q => strBytes (q.1 ++ ": " ++ q.2))) ++
        13 :: 10 :: body := by
  intro hs
  induction hs with
  | nil =>
    intro sl body
    simp [renderHeaderLines, strBytes_append, strBytes_crlf, strBytes_empty, joinCRLF,
      List.append_assoc]
  | cons q hs ih =>
    intro sl body
    rw [List.map_cons, joinCRLF_cons_append, ← ih (q.1 ++ ": " ++ q.2) body]
    simp [renderHeaderLines, strBytes_append, strBytes_crlf, List.append_assoc]

theorem pairs_dictInsert (P : String × String → Prop) (d : List (String × String))
    (k v : String) (hd : ∀ q ∈ d, P q) (hkv : P (k, v)) :
    ∀ q ∈ dictInsert d k v, P q := by
  intro q hq
  by_cases hk : hasKey k d = true
  · simp only [dictInsert, if_pos hk, List.mem_map] at hq
    obtain ⟨q', hq', rfl⟩ := hq
    by_cases h : q'.1 = k
    · simpa [h] using hkv
    · simpa [h] using hd q' hq'
  · simp only [dictInsert, if_neg hk, List.mem_append, List.mem_singleton] at hq
    rcases hq with hq | rfl
    · exact hd q hq
    · exact hkv

theorem pairs_dictUpdate (P : String × String → Prop) : ∀ (e d : List (String × String)),
    (∀ q ∈ d, P q) → (∀ q ∈ e, P q) → ∀ q ∈ dictUpdate d e, P q := by
  intro e
  induction e with
  | nil => intro d hd _ q hq; exact hd q hq
  | cons p rest ih =>
    intro d hd he q hq
    obtain ⟨k, v⟩ := p
    exact ih (dictInsert d k v)
      (pairs_dictInsert P d k v hd (he (k, v) (by simp)))
      (fun q' hq' => he q' (by simp [hq'])) q hq

theorem dictGet_dictUpdate_not_mem (k : String) : ∀ (e d : List (String × String)),
    (∀ q ∈ e, q.1 ≠ k) → dictGet k (dictUpdate d e) = dictGet k d := by
  intro e
  induction e with
  | nil => intro d _; rfl
  | cons p rest ih =>
    intro d he
    obtain ⟨k', v⟩ := p
    rw [show dictUpdate d ((k', v) :: rest) = dictUpdate (dictInsert d k' v) rest from rfl]
    rw [ih (dictInsert d k' v) (fun q hq => he q (by simp [hq]))]
    exact dictGet_insert_ne d k k' v (he (k', v) (by simp))

theorem header_line_good (q : String × String)
    (h1 : ∀ c ∈ q.1.data, c ≠ '\x0d') (h2 : ∀ c ∈ q.2.data, c ≠ '\x0d') :
    strBytes (q.1 ++ ": " ++ q.2) ≠ [] ∧ ∀ b ∈ strBytes (q.1 ++ ": " ++ q.2), b ≠ 13 := by
  have hmid : ∀ c ∈ ": ".data, c ≠ '\x0d' := by decide
  constructor
  · apply strBytes_ne_nil
    rw [str_data_append, str_data_append]
    simp
  · apply mem_strBytes_ne_13
    intro c hc
    rw [str_data_append, str_data_append] at hc
    rcases List.mem_append.mp hc with hc | hc
    · rcases List.mem_append.mp hc with hc | hc
      · exact h1 c hc
      · exact hmid c hc
    · exact h2 c hc

theorem status_line_good (status_code : Nat) (status_text : String)
    (hst : ∀ c ∈ status_text.data, c ≠ '\x0d') :
    strBytes ("HTTP/1.1 " ++ toString status_code ++ " " ++ status_text) ≠ [] ∧
    ∀ b ∈ strBytes ("HTTP/1.1 " ++ toString status_code ++ " " ++ status_text), b ≠ 13 := by
  have hH : ∀ c ∈ "HTTP/1.1 ".data, c ≠ '\x0d' := by decide
  have hsp : ∀ c ∈ " ".data, c ≠ '\x0d' := by decide
  constructor
  · apply strBytes_ne_nil
    rw [str_data_append, str_data_append, str_data_append]
    simp
  · apply mem_strBytes_ne_13
    intro c hc
    rw [str_data_append, str_data_append, str_data_append] at hc
    rcases List.mem_append.mp hc with hc | hc
    · rcases List.mem_append.mp hc with hc | hc
      · rcases List.mem_append.mp hc with hc | hc
        · exact hH c hc
        · exact toString_nat_ne_13 status_code c hc
      · exact hsp c hc
    · exact hst c hc

theorem standardHeaders_pairs (date content_type : String) (content : PyContent)
    (hd : ∀ c ∈ date.data, c ≠ '\x0d') (hct : ∀ c ∈ content_type.data, c ≠ '\x0d') :
    ∀ q ∈ standardHeaders date content_type content,
      (∀ c ∈ q.1.data, c ≠ '\x0d') ∧ (∀ c ∈ q.2.data, c ≠ '\x0d') := by
  intro q hq
  simp only [standardHeaders, List.mem_cons, List.not_mem_nil, or_false] at hq
  rcases hq with rfl | rfl | rfl | rfl | rfl
  · exact ⟨by decide, by decide⟩
  · exact ⟨(by decide : ∀ c ∈ "Date".data, c ≠ '\x0d'), hd⟩
  · exact ⟨(by decide : ∀ c ∈ "Content-Type".data, c ≠ '\x0d'), hct⟩
  · exact ⟨(by decide : ∀ c ∈ "Content-Length".data, c ≠ '\x0d'),
      toString_nat_ne_13 (contentLength content)⟩
  · exact ⟨by decide, by decide⟩

theorem build_response_framing_aux (date status_text content_type : String)
    (status_code : Nat) (content : PyContent) (extra : List (String × String))
    (hd : ∀ c ∈ date.data, c ≠ '\x0d') (hst : ∀ c ∈ status_text.data, c ≠ '\x0d')
    (hct : ∀ c ∈ content_type.data, c ≠ '\x0d')
    (hex : ∀ q ∈ extra, (∀ c ∈ q.1.data, c ≠ '\x0d') ∧ (∀ c ∈ q.2.data, c ≠ '\x0d')) :
    build_response date status_code status_text content content_type extra =
      joinCRLF (strBytes ("HTTP/1.1 " ++ toString status_code ++ " " ++ status_text) ::
        (dictUpdate (standardHeaders date content_type content) extra).map
          (fun q => strBytes (q.1 ++ ": " ++ q.2))) ++ 13 :: 10 :: contentBytes content ∧
    (∀ l ∈ strBytes ("HTTP/1.1 " ++ toString status_code ++ " " ++ status_text) ::
        (dictUpdate (standardHeaders date content_type content) extra).map
          (fun q => strBytes (q.1 ++ ": " ++ q.2)), l ≠ [] ∧ ∀ b ∈ l, b ≠ 13) := by
  constructor
  · rw [show build_response date status_code status_text content content_type extra =
        strBytes (("HTTP/1.1 " ++ toString status_code ++ " " ++ status_text) ++ "\r\n" ++
          renderHeaderLines (dictUpdate (standardHeaders date content_type content) extra) ++
          "\r\n") ++ contentBytes content from by
      simp [build_response, strBytes_append, strBytes_crlf, List.append_assoc]]
    exact renderHeaderLines_bytes _ _ _
  · intro l hl
    rcases List.mem_cons.mp hl with hl | hl
    · rw [hl]; exact status_line_good status_code status_text hst
    · simp only [List.mem_map] at hl
      obtain ⟨q, hq, rfl⟩ := hl
      have hp := pairs_dictUpdate
        (fun q => (∀ c ∈ q.1.data, c ≠ '\x0d') ∧ (∀ c ∈ q.2.data, c ≠ '\x0d'))
        extra (standardHeaders date content_type content)
        (standardHeaders_pairs date content_type content hd hct) hex q hq
      exact header_line_good q hp.1 hp.2

/-- C8: round-trip through the response framing — for every body (text or
bytes), the bytes after the first `"\r\n\r\n"` of the built response are
exactly the body's encoded bytes, unchanged. -/
theorem build_response_roundtrip (date : String) (content : PyContent)
    (hd : ∀ c ∈ date.data, c ≠ '\x0d') :
    dropAfterTerm (build_response date 200 "OK" content "text/html" []) =
      some (contentBytes content) := by
  obtain ⟨hdecomp, hgood⟩ := build_response_framing_aux date "OK" "text/html" 200 content []
    hd (by decide) (by decide) (by simp)
  rw [hdecomp]
  exact dropAfterTerm_header_block _ _ (by simp) hgood

/-- C8 witness: the round-trip evaluated at a concrete date and body. -/
theorem build_response_roundtrip_witness :
    dropAfterTerm (build_response "Mon, 01 Jan 2024 00:00:00 GMT" 200 "OK"
        (PyContent.text "hello") "text/html" []) =
      some (contentBytes (PyContent.text "hello")) :=
  build_response_roundtrip "Mon, 01 Jan 2024 00:00:00 GMT" (PyContent.text "hello")
    (by decide)

theorem joinCRLF_peel : ∀ (ls : List (List Nat)), ls ≠ [] →
    ∃ hdr, joinCRLF ls = hdr ++ [13, 10] := by
  intro ls
  induction ls with
  | nil => intro h; exact absurd rfl h
  | cons l ls ih =>
    intro _
    cases ls with
    | nil => exact ⟨l, by simp [joinCRLF]⟩
    | cons l2 ls2 =>
      obtain ⟨hdr, hh⟩ := ih (by simp)
      refine ⟨l ++ 13 :: 10 :: hdr, ?_⟩
      rw [joinCRLF, hh]
      simp [List.append_assoc]

/-- C3 counterexample: with `extra_headers` carrying a `Content-Length`
entry, `build_response` emits that value — here `0` — although the body
`"a"` encodes to 1 byte, so the Content-Length header does not equal the
body's byte length for every response spec. -/
theorem build_response_content_length_counterexample :
    build_response "D" 200 "OK" (PyContent.text "a") "text/html" [("Content-Length", "0")] =
      strBytes ("HTTP/1.1 200 OK\r\nServer: Own-Web-Server/1.0\r\nDate: D\r\n" ++
        "Content-Type: text/html\r\nContent-Length: 0\r\nConnection: close\r\n\r\n") ++ [97] ∧
    contentLength (PyContent.text "a") = 1 := by
  constructor
  · decide
  · decide

/-- C3 amended: provided the extra headers do not override
`Content-Length` and no header field (status text, content type, date,
extra names and values) contains a CR, the output of `build_response` is
a header block followed by exactly one empty line and then the body
bytes verbatim, and its Content-Length header value is exactly the byte
length of the encoded body. -/
theorem build_response_framing (date status_text content_type : String)
    (status_code : Nat) (content : PyContent) (extra : List (String × String))
    (hd : ∀ c ∈ date.data, c ≠ '\x0d') (hst : ∀ c ∈ status_text.data, c ≠ '\x0d')
    (hct : ∀ c ∈ content_type.data, c ≠ '\x0d')
    (hex : ∀ q ∈ extra, (∀ c ∈ q.1.data, c ≠ '\x0d') ∧ (∀ c ∈ q.2.data, c ≠ '\x0d'))
    (hcl : ∀ q ∈ extra, q.1 ≠ "Content-Length") :
    (∃ hdr, build_response date status_code status_text content content_type extra =
        hdr ++ 13 :: 10 :: 13 :: 10 :: contentBytes content ∧
      countTerm (hdr ++ [13, 10, 13, 10]) = 1) ∧
    dictGet "Content-Length" (dictUpdate (standardHeaders date content_type content) extra) =
      some (toString (contentLength content)) := by
  obtain ⟨hdecomp, hgood⟩ :=
    build_response_framing_aux date status_text content_type status_code content extra
      hd hst hct hex
  constructor
  · obtain ⟨hdr, hh⟩ := joinCRLF_peel _ (show
      strBytes ("HTTP/1.1 " ++ toString status_code ++ " " ++ status_text) ::
        (dictUpdate (standardHeaders date content_type content) extra).map
          (fun q => strBytes (q.1 ++ ": " ++ q.2)) ≠ [] by simp)
    refine ⟨hdr, ?_, ?_⟩
    · rw [hdecomp, hh]
      simp [List.append_assoc]
    · have h1 := countTerm_header_block _ (by simp) hgood
      rw [hh] at h1
      rw [show hdr ++ [13, 10, 13, 10] = (hdr ++ [13, 10]) ++ [13, 10] from by
        simp [List.append_assoc]]
      exact h1
  · rw [dictGet_dictUpdate_not_mem "Content-Length" extra _ hcl]
    simp only [standardHeaders, dictGet]
    rw [if_neg (by decide), if_neg (by decide), if_neg (by decide)]
    simp

/-- C3 witness: the amended framing statement evaluated at a concrete
response spec (with a non-interfering extra header). -/
theorem build_response_framing_witness :
    (∃ hdr, build_response "D" 405 "Method Not Allowed" (PyContent.text "nope") "text/html"
        [("Allow", "GET, POST, HEAD")] =
        hdr ++ 13 :: 10 :: 13 :: 10 :: contentBytes (PyContent.text "nope") ∧
      countTerm (hdr ++ [13, 10, 13, 10]) = 1) ∧
    dictGet "Content-Length"
      (dictUpdate (standardHeaders "D" "text/html" (PyContent.text "nope"))
        [("Allow", "GET, POST, HEAD")]) =
      some (toString (contentLength (PyContent.text "nope"))) :=
  build_response_framing "D" "Method Not Allowed" "text/html" 405 (PyContent.text "nope")
    [("Allow", "GET, POST, HEAD")] (by decide) (by decide) (by decide)
    (by intro q hq
        simp only [List.mem_singleton] at hq
        rw [hq]
        exact ⟨by decide, by decide⟩)
    (by intro q hq
        simp only [List.mem_singleton] at hq
        rw [hq]
        decide)
